import Mathlib

/-!
Shallow embedding of two TiDB subsystems:
  * the collation/charset coercibility resolver (`expression/collation.go`:
    `inferCollation`, `CheckAndDeriveCollationFromExprs`, `safeConvert`, helpers);
  * parts of the MySQL-protocol connection layer (`server/conn.go`:
    `handleQuery` multi-statement gating, `checkAuthPlugin` / `openSessionAndDoAuth`,
    `writeChunks`, `writeChunksWithFetchSize`, `ShutdownOrNotify`).
Machine integers are modelled as `Nat` (bit operations are on explicit masks),
strings as Lean `String`, fallible code as `Option` / `Except`, and the external
collaborators (query executor, privilege manager, network peer, text encoders)
as explicit parameters.
-/

/-! ## Charset and collation constants (parser/charset) -/

def charsetBin : String := "binary"

def collationBin : String := "binary"

def charsetUTF8 : String := "utf8"

def collationUTF8 : String := "utf8_bin"

def charsetUTF8MB4 : String := "utf8mb4"

def collationUTF8MB4 : String := "utf8mb4_bin"

def charsetASCII : String := "ascii"

def collationASCII : String := "ascii_bin"

def charsetLatin1 : String := "latin1"

def collationLatin1 : String := "latin1_bin"

def charsetGBK : String := "gbk"

def collationGBKBin : String := "gbk_bin"

/-- `charset.GetDefaultCharsetAndCollate` returns (utf8mb4, utf8mb4_bin). -/
def defaultCharset : String := charsetUTF8MB4

/-- Default collation half of `charset.GetDefaultCharsetAndCollate`. -/
def defaultCollation : String := collationUTF8MB4

/-! ## Coercibility values (`Coercibility int` constants) -/

def coercibilityExplicit : Nat := 0

def coercibilityNone : Nat := 1

def coercibilityImplicit : Nat := 2

def coercibilitySysconst : Nat := 3

def coercibilityCoercible : Nat := 4

def coercibilityNumeric : Nat := 5

def coercibilityIgnorable : Nat := 6

/-! ## Repertoire bitset: ASCII = 0x01, EXTENDED = ASCII << 1, UNICODE = ASCII ||| EXTENDED -/

def asciiRep : Nat := 1

def extendedRep : Nat := 2

def unicodeRep : Nat := asciiRep ||| extendedRep

/-- One argument expression as seen by the collation resolver: its coercibility,
repertoire, declared charset and collation (`GetType().Charset` / `.Collate`),
plus the data `safeConvert` needs: whether it is a `*Constant`, and the result of
`EvalString` on it (`none` = evaluation error, `some none` = NULL,
`some (some s)` = the literal string value). -/
structure Expression where
  coer : Nat
  repe : Nat
  charset : String
  collation : String
  isConst : Bool
  evalStr : Option (Option String)
deriving DecidableEq, Repr

/-- The result tuple of the resolver (struct `ExprCollation`). -/
structure ExprCollation where
  coer : Nat
  repe : Nat
  charset : String
  collation : String
deriving DecidableEq, Repr

/-- The mutable locals of the aggregation loop in `inferCollation`:
`coercibility`, `repertoire`, `dstCharset`, `dstCollation`, `unknownCS`. -/
structure AggState where
  coer : Nat
  repe : Nat
  charset : String
  collation : String
  unknownCS : Bool
deriving DecidableEq, Repr

/-- `isUnicodeCollation`: the charset is utf8 or utf8mb4. -/
def isUnicodeCollation (ch : String) : Bool :=
  ch == charsetUTF8 || ch == charsetUTF8MB4

/-- `isBinCollation`: ascii_bin, latin1_bin, utf8_bin, utf8mb4_bin or gbk_bin
(the per-charset binary collations; NOT the `binary` collation itself). -/
def isBinCollation (collate : String) : Bool :=
  collate == collationASCII || collate == collationLatin1 ||
    collate == collationUTF8 || collate == collationUTF8MB4 ||
    collate == collationGBKBin

/-- `getBinCollation`: binary collation of a charset; the source logs an error
and falls back to utf8mb4_bin on an unexpected charset. -/
def getBinCollation (cs : String) : String :=
  if cs = charsetUTF8 then collationUTF8
  else if cs = charsetUTF8MB4 then collationUTF8MB4
  else if cs = charsetGBK then collationGBKBin
  else collationUTF8MB4

/-- One iteration of the aggregation loop of `inferCollation` (the body of
`for _, arg := range exprs[1:]`), folding the next argument `arg` into the
accumulated state.  `none` models the `return nil` taken on two conflicting
explicit collations of the same charset, which aborts the whole fold. -/
def inferStep (st : AggState) (arg : Expression) : Option AggState :=
  -- binary-collation branch: if either side collates as `binary`
  if st.collation = collationBin ∨ arg.collation = collationBin then
    if st.coer > arg.coer ∨ (st.coer = arg.coer ∧ arg.collation = collationBin) then
      some ⟨arg.coer, st.repe ||| arg.repe, arg.charset, arg.collation, st.unknownCS⟩
    else
      some ⟨st.coer, st.repe ||| arg.repe, st.charset, st.collation, st.unknownCS⟩
  else if st.charset ≠ arg.charset then
    -- different charsets: three coercibility cases, each may fall through to the
    -- unresolvable downgrade `(CoercibilityNone, binary, binary)` + unknownCS
    if st.coer < arg.coer then
      if arg.repe = asciiRep ∨ arg.coer ≥ coercibilitySysconst ∨ isUnicodeCollation st.charset then
        some ⟨st.coer, st.repe ||| arg.repe, st.charset, st.collation, st.unknownCS⟩
      else
        some ⟨coercibilityNone, st.repe ||| arg.repe, charsetBin, collationBin, true⟩
    else if st.coer = arg.coer then
      if (isUnicodeCollation st.charset ∧ ¬ isUnicodeCollation arg.charset) ∨
          (st.charset = charsetUTF8MB4 ∧ arg.charset = charsetUTF8) then
        some ⟨st.coer, st.repe ||| arg.repe, st.charset, st.collation, st.unknownCS⟩
      else if (isUnicodeCollation arg.charset ∧ ¬ isUnicodeCollation st.charset) ∨
          (arg.charset = charsetUTF8MB4 ∧ st.charset = charsetUTF8) then
        some ⟨arg.coer, st.repe ||| arg.repe, arg.charset, arg.collation, st.unknownCS⟩
      else if st.repe = asciiRep ∧ arg.repe ≠ asciiRep then
        some ⟨arg.coer, st.repe ||| arg.repe, arg.charset, arg.collation, st.unknownCS⟩
      else if st.repe ≠ asciiRep ∧ arg.repe = asciiRep then
        some ⟨st.coer, st.repe ||| arg.repe, st.charset, st.collation, st.unknownCS⟩
      else
        some ⟨coercibilityNone, st.repe ||| arg.repe, charsetBin, collationBin, true⟩
    else
      if st.repe = asciiRep ∨ st.coer ≥ coercibilitySysconst ∨ isUnicodeCollation arg.charset then
        some ⟨arg.coer, st.repe ||| arg.repe, arg.charset, arg.collation, st.unknownCS⟩
      else
        some ⟨coercibilityNone, st.repe ||| arg.repe, charsetBin, collationBin, true⟩
  else
    -- same charset
    if st.coer = arg.coer then
      if st.collation = arg.collation then
        some ⟨st.coer, st.repe ||| arg.repe, st.charset, st.collation, st.unknownCS⟩
      else if st.coer = coercibilityExplicit then
        none
      else if isBinCollation st.collation then
        some ⟨st.coer, st.repe ||| arg.repe, st.charset, st.collation, st.unknownCS⟩
      else if isBinCollation arg.collation then
        some ⟨arg.coer, st.repe ||| arg.repe, arg.charset, arg.collation, st.unknownCS⟩
      else
        some ⟨coercibilityNone, st.repe ||| arg.repe, arg.charset,
          getBinCollation arg.charset, st.unknownCS⟩
    else if st.coer > arg.coer then
      some ⟨arg.coer, st.repe ||| arg.repe, arg.charset, arg.collation, st.unknownCS⟩
    else
      some ⟨st.coer, st.repe ||| arg.repe, st.charset, st.collation, st.unknownCS⟩

/-- The aggregation loop of `inferCollation` over the remaining arguments. -/
def inferFold (st : AggState) : List Expression → Option AggState
  | [] => some st
  | arg :: rest =>
    match inferStep st arg with
    | none => none
    | some st' => inferFold st' rest

/-- `inferCollation`: fold all arguments; afterwards, an unknown-charset
downgrade that was not overridden by an explicit coercibility makes the whole
resolution fail (`return nil`). -/
def inferCollation (exprs : List Expression) : Option ExprCollation :=
  match exprs with
  | [] => some ⟨coercibilityIgnorable, unicodeRep, defaultCharset, defaultCollation⟩
  | e :: rest =>
    match inferFold ⟨e.coer, e.repe, e.charset, e.collation, false⟩ rest with
    | none => none
    | some st =>
      if st.unknownCS ∧ st.coer ≠ coercibilityExplicit then none
      else some ⟨st.coer, st.repe, st.charset, st.collation⟩

/-- Session context consumed by the resolver: the connection charset/collation
(`GetCharsetInfo`) and the external text-encoder collaborator used by
`isValidString`'s default branch (`charset.Lookup(...).NewEncoder()`), modelled
as a predicate "string s encodes losslessly in charset chs". -/
structure SessionCtx where
  charset : String
  collation : String
  encodable : String → String → Bool

/-- `isValidString str dstChs`: can `str` convert to `dstChs` without data loss. -/
def isValidString (ctx : SessionCtx) (str : String) (dstChs : String) : Bool :=
  if dstChs = charsetASCII then str.toList.all fun c => c.toNat < 0x80
  else if dstChs = charsetLatin1 then true
  else if dstChs = charsetUTF8 ∨ dstChs = charsetUTF8MB4 then true
  else if dstChs = charsetBin then true
  else ctx.encodable dstChs str

/-- `safeConvert` for one argument (the body of its loop). -/
def safeConvertArg (ctx : SessionCtx) (ec : ExprCollation) (arg : Expression) : Bool :=
  if arg.charset = ec.charset then true
  else if arg.repe = asciiRep then true
  else if arg.isConst then
    match arg.evalStr with
    | none => false
    | some none => true
    | some (some str) => isValidString ctx str ec.charset
  else
    ¬ (arg.collation ≠ charsetBin ∧ ec.charset ≠ charsetBin ∧
        ¬ isUnicodeCollation ec.charset)

/-- `safeConvert`: every argument must be losslessly reinterpretable under the
winning charset. -/
def safeConvert (ctx : SessionCtx) (ec : ExprCollation) (args : List Expression) : Bool :=
  args.all (safeConvertArg ctx ec)

/-- `CheckAndDeriveCollationFromExprs`.  The eval type argument is abstracted to
whether it is `types.ETString` (the only comparison the source makes).  The
error value `()` stands for the `illegalMixCollationErr` result. -/
def checkAndDeriveCollationFromExprs (ctx : SessionCtx) (evalTypeIsString : Bool)
    (args : List Expression) : Except Unit ExprCollation :=
  match inferCollation args with
  | none => .error ()
  | some ec0 =>
    if ¬ evalTypeIsString ∧ ec0.coer = coercibilityNone then .error ()
    else
      let ec : ExprCollation :=
        if evalTypeIsString ∧ ec0.coer = coercibilityNumeric then
          ⟨coercibilityCoercible, asciiRep, ctx.charset, ctx.collation⟩
        else ec0
      if ¬ safeConvert ctx ec args then .error ()
      else .ok ec

/-- `deriveCollation` for a concat-style function (`ast.Concat` etc.): it calls
`CheckAndDeriveCollationFromExprs` on all arguments with the function's string
result type. -/
def resolveConcat (ctx : SessionCtx) (args : List Expression) : Except Unit ExprCollation :=
  checkAndDeriveCollationFromExprs ctx true args

/-! ## Server connection layer (server/conn.go) -/

/-- Error values the modelled connection code distinguishes. -/
inductive SrvErr where
  | accessDenied
  | accessDeniedNoPassword
  | multiStatementDisabled
  | unknownAuthPlugin
  | tiflashTimeout
  | other (msg : String)
deriving DecidableEq, Repr

/-! ### ShutdownOrNotify (claim C10) -/

/-- `mysql.ServerStatusInTrans` = 0x0001. -/
def serverStatusInTrans : Nat := 1

def connStatusDispatching : Nat := 0

def connStatusReading : Nat := 1

def connStatusShutdown : Nat := 2

def connStatusWaitShutdown : Nat := 3

/-- `ShutdownOrNotify`: given the session status word and the connection's
status field, return whether the connection may be shut down now together with
the new value of the status field.  The CAS on `cc.status` is modelled as the
sequential compare-and-set it performs. -/
def shutdownOrNotify (sessionStatus connStatus : Nat) : Bool × Nat :=
  if sessionStatus &&& serverStatusInTrans > 0 then (false, connStatus)
  else if connStatus = connStatusReading then (true, connStatusShutdown)
  else (false, connStatusWaitShutdown)

/-! ### handleQuery multi-statement dispatch (claim C1) -/

/-- `mysql.ClientMultiStatements` = 1 << 16. -/
def clientMultiStatements : Nat := 65536

/-- `variable.OffInt`. -/
def modeOff : Nat := 0

/-- `variable.OnInt`.  Any other value falls into the `default:` (warn) case. -/
def modeOn : Nat := 1

/-- `variable.WarnInt`. -/
def modeWarn : Nat := 2

/-- Environment of one `handleQuery` call: negotiated capability bits, the
`tidb_multi_statement_mode` sysvar, the outcome of `prefetchPointPlanKeys`, the
TiFlash fallback switch, and the external executor: `run s` is the
`(retryable, err)` pair `handleStmt` returns for statement `s`, `rerun s` the
error of the fallback re-execution after TiKV is forced. -/
structure QueryEnv where
  capability : Nat
  multiStmtMode : Nat
  prefetchErr : Option SrvErr
  allowTiFlashFallback : Bool
  run : String → Bool × Option SrvErr
  rerun : String → Option SrvErr

/-- Result of `handleQuery`: the statements on which `handleStmt` was invoked
(first attempts, in order), the error returned, and whether the
`errMultiStatementDisabled` warning was appended to the parser warnings. -/
structure QueryResult where
  executed : List String
  err : Option SrvErr
  multiWarn : Bool
deriving DecidableEq, Repr

/-- The statement loop of `handleQuery` (`for i, stmt := range stmts`): run each
statement, breaking on a non-retryable error or any error that is not a TiFlash
timeout with fallback allowed; a fallback re-execution error also breaks. -/
def runStmts (env : QueryEnv) : List String → List String × Option SrvErr
  | [] => ([], none)
  | s :: rest =>
    let r := env.run s
    match r.2 with
    | none =>
      let tail := runStmts env rest
      (s :: tail.1, tail.2)
    | some e =>
      if ¬ r.1 ∨ e ≠ SrvErr.tiflashTimeout then ([s], some e)
      else if ¬ env.allowTiFlashFallback then ([s], some e)
      else
        match env.rerun s with
        | some e2 => ([s], some e2)
        | none =>
          let tail := runStmts env rest
          (s :: tail.1, tail.2)

/-- `handleQuery` after a successful parse: the multi-statement capability gate
(Off rejects, On allows silently, anything else appends a warning), point-plan
prefetch for multi-statement queries, then the statement loop. -/
def handleQuery (env : QueryEnv) (stmts : List String) : QueryResult :=
  if stmts.length = 0 then ⟨[], none, false⟩
  else
    let gate : Except SrvErr Bool :=
      if stmts.length > 1 then
        if env.capability &&& clientMultiStatements < 1 then
          if env.multiStmtMode = modeOff then .error .multiStatementDisabled
          else if env.multiStmtMode = modeOn then .ok false
          else .ok true
        else .ok false
      else .ok false
    match gate with
    | .error e => ⟨[], some e, false⟩
    | .ok warned =>
      match (if stmts.length > 1 then env.prefetchErr else none) with
      | some e => ⟨[], some e, warned⟩
      | none =>
        let r := runStmts env stmts
        ⟨r.1, r.2, warned⟩

/-! ### Authentication plugin resolution (claim C2) -/

/-- `mysql.AuthSocket`. -/
def authSocketName : String := "auth_socket"

/-- `mysql.AuthNativePassword`. -/
def authNativePassword : String := "mysql_native_password"

/-- `mysql.AuthCachingSha2Password`. -/
def authCachingSha2Password : String := "caching_sha2_password"

/-- `variable.DefHostname`. -/
def defHostname : String := "localhost"

/-- External collaborators of the handshake: the user's configured plugin
(`AuthPluginForUser`), the OS account for the unix-socket peer uid
(`user.LookupId`), the server-advertised plugin (`cc.authPlugin`), transport
facts, the privilege manager's verdict on the final auth data (`ctx.Auth`), and
the client's answers to the auth-switch and `caching_sha2` fast-auth exchanges
(`none` = I/O failure while reading them). -/
structure AuthEnv where
  userplugin : String
  uidLookup : Option String
  serverPlugin : String
  isUnixSocket : Bool
  peerAddrOk : Bool
  authAccept : String → Bool
  switchResp : Option String
  shaResp : Option String
  shaResp2 : Option String
  dbname : String
  useDBErr : Option SrvErr

/-- `checkAuthPlugin`: returns (outcome carrying the optional new auth data, the
final value of the in/out parameter `*authPlugin`).  The plugin is mutated to
`auth_socket` before the uid lookup, so it sticks even when the lookup fails;
in the auth-switch branch it is only updated after a successful switch. -/
def checkAuthPlugin (env : AuthEnv) (clientPlugin : String) :
    Except SrvErr (Option String) × String :=
  if env.userplugin = authSocketName then
    match env.uidLookup with
    | none => (.error (.other "user lookup failed"), authSocketName)
    | some uname => (.ok (some uname), authSocketName)
  else if env.userplugin = "" then
    (.ok none, authNativePassword)
  else if env.serverPlugin ≠ env.userplugin ∨ env.serverPlugin ≠ clientPlugin then
    match env.switchResp with
    | none => (.error (.other "auth switch failed"), clientPlugin)
    | some d => (.ok (some d), env.userplugin)
  else
    (.ok none, clientPlugin)

/-- `handleAuthPlugin`: when the client negotiated `ClientPluginAuth`, resolve
the plugin via `checkAuthPlugin` (its error is only logged), adopt the returned
auth data when non-empty, and run the `caching_sha2_password` fast-auth
exchange when that plugin was selected.  Returns the updated
(authPlugin, authData) pair of the handshake response. -/
def handleAuthPlugin (env : AuthEnv) (clientPluginAuth : Bool)
    (clientPlugin clientAuth : String) : Except SrvErr (String × String) :=
  if clientPluginAuth then
    let r := checkAuthPlugin env clientPlugin
    let plugin := r.2
    let auth :=
      match r.1 with
      | .ok (some d) => if d.length > 0 then d else clientAuth
      | _ => clientAuth
    if plugin = authCachingSha2Password then
      match env.shaResp with
      | none => .error (.other "authSha failed")
      | some d => .ok (plugin, d)
    else
      .ok (plugin, auth)
  else
    .ok (clientPlugin, clientAuth)

/-- `PeerHost`: unix-socket connections report `DefHostname`; otherwise the
remote address must split into host and port, else access is denied. -/
def peerHost (env : AuthEnv) : Except SrvErr String :=
  if env.isUnixSocket then .ok defHostname
  else if env.peerAddrOk then .ok "peer-host"
  else .error .accessDenied

/-- `openSessionAndDoAuth`: resolve the peer host, reject `auth_socket` over a
non-unix-socket transport, verify the credential with the privilege
collaborator, then switch to the requested database. -/
def openSessionAndDoAuth (env : AuthEnv) (authData authPlugin : String) :
    Except SrvErr Unit :=
  match peerHost env with
  | .error e => .error e
  | .ok _host =>
    if ¬ env.isUnixSocket ∧ authPlugin = authSocketName then
      .error .accessDeniedNoPassword
    else if ¬ env.authAccept authData then
      .error .accessDenied
    else if env.dbname ≠ "" then
      match env.useDBErr with
      | some e => .error e
      | none => .ok ()
    else .ok ()

/-- Tail of `readOptionalSSLRequestAndHandshakeResponse`: run
`handleAuthPlugin`, re-check the final plugin (a second `caching_sha2` fast
exchange, unknown plugins rejected), then `openSessionAndDoAuth`. -/
def handshakeAuth (env : AuthEnv) (clientPluginAuth : Bool)
    (clientPlugin clientAuth : String) : Except SrvErr Unit :=
  match handleAuthPlugin env clientPluginAuth clientPlugin clientAuth with
  | .error e => .error e
  | .ok pa =>
    if pa.1 = authCachingSha2Password then
      match env.shaResp2 with
      | none => .error (.other "authSha failed")
      | some d => openSessionAndDoAuth env d pa.1
    else if pa.1 = authNativePassword ∨ pa.1 = authSocketName then
      openSessionAndDoAuth env pa.2 pa.1
    else
      .error .unknownAuthPlugin

/-- An access-denied outcome (`errAccessDenied` or `errAccessDeniedNoPassword`,
both ER_ACCESS_DENIED_ERROR). -/
def isAccessDeniedRes (r : Except SrvErr Unit) : Bool :=
  match r with
  | .error .accessDenied => true
  | .error .accessDeniedNoPassword => true
  | _ => false

/-! ### Result streaming, flush-all mode (claim C7) -/

/-- One row as the streamer sees it: whether the text/binary row dump fails and
whether writing the resulting packet fails. -/
structure RowW where
  encodeErr : Option String
  writeErr : Option String
deriving DecidableEq, Repr

/-- One `ResultSet.Next` outcome: an executor error, or a chunk of rows (an
empty chunk ends the stream). -/
inductive PullRes where
  | err (e : String)
  | chunk (rows : List RowW)
deriving DecidableEq, Repr

/-- Wire packets the streamer emits (payload contents abstracted). -/
inductive WPkt where
  | colInfo
  | row
  | eof
deriving DecidableEq, Repr

/-- Outcome of `writeChunks`: its two return values plus the packets written. -/
structure WCRes where
  retryable : Bool
  err : Option String
  written : List WPkt
deriving DecidableEq, Repr

/-- The row loop inside `writeChunks`: dump and write each row, stopping at the
first encode or write error; returns the packets written and that error. -/
def writeRows : List RowW → List WPkt × Option String
  | [] => ([], none)
  | r :: rs =>
    match r.encodeErr with
    | some e => ([], some e)
    | none =>
      match r.writeErr with
      | some e => ([], some e)
      | none =>
        let tail := writeRows rs
        (WPkt.row :: tail.1, tail.2)

/-- `writeChunks` in flush-all mode, driven by the list of successive `Next`
outcomes.  `firstNext` tracks whether the upcoming pull is the first one; the
column descriptors are written only after the first successful pull.  An
exhausted outcome list behaves as a final empty chunk. -/
def writeChunks : List PullRes → Bool → Bool → List WPkt → WCRes
  | [], _, gotColumnInfo, written =>
    let w := if ¬ gotColumnInfo then written ++ [WPkt.colInfo] else written
    ⟨false, none, w ++ [WPkt.eof]⟩
  | .err e :: _, firstNext, _, written => ⟨firstNext, some e, written⟩
  | .chunk rows :: rest, _, gotColumnInfo, written =>
    let w := if ¬ gotColumnInfo then written ++ [WPkt.colInfo] else written
    if rows.length = 0 then ⟨false, none, w ++ [WPkt.eof]⟩
    else
      let wr := writeRows rows
      match wr.2 with
      | some e => ⟨false, some e, w ++ wr.1⟩
      | none => writeChunks rest false true (w ++ wr.1)

/-- `writeChunks` as called by `writeResultset`: nothing written yet, columns
not yet sent, first pull pending. -/
def writeChunksRun (pulls : List PullRes) : WCRes :=
  writeChunks pulls true false []

/-! ### Cursor fetch (claim C4) -/

/-- `mysql.ServerStatusCursorExists` = 0x0040. -/
def serverStatusCursorExists : Nat := 64

/-- `mysql.ServerStatusLastRowSend` = 0x0080. -/
def serverStatusLastRowSend : Nat := 128

/-- The buffer-filling loop of `writeChunksWithFetchSize`: while the buffered
rows are fewer than `fetchSize`, pull another chunk of up to `chunkSize` rows
from the executor (`remaining` models its pending rows); an empty chunk stops.
Structured with explicit fuel; `fillBuffer` supplies enough fuel for the loop
to run to completion, since every iteration consumes at least one pending row. -/
def fillBufferFuel : Nat → Nat → Nat → List Nat → List Nat → List Nat × List Nat
  | 0, _, _, buffer, remaining => (buffer, remaining)
  | fuel + 1, chunkSize, fetchSize, buffer, remaining =>
    if buffer.length < fetchSize then
      let chunkRows := remaining.take chunkSize
      if chunkRows.length = 0 then (buffer, remaining)
      else fillBufferFuel fuel chunkSize fetchSize (buffer ++ chunkRows) (remaining.drop chunkSize)
    else (buffer, remaining)

/-- The buffer-filling loop with sufficient fuel. -/
def fillBuffer (chunkSize fetchSize : Nat) (buffer remaining : List Nat) :
    List Nat × List Nat :=
  fillBufferFuel (remaining.length + 1) chunkSize fetchSize buffer remaining

/-- One fetch response: the rows written, the status word of the trailing EOF
packet, whether the result set was closed, and the stored buffer and pending
executor rows afterwards. -/
structure FetchResp where
  rows : List Nat
  status : Nat
  closed : Bool
  buf : List Nat
  rem : List Nat
deriving DecidableEq, Repr

/-- `writeChunksWithFetchSize`: refill the buffer, and when it is empty clear
the cursor-exists bit (uint16 AND-NOT), set the last-row-sent bit and close the
result set; otherwise send up to `fetchSize` buffered rows and store the rest,
leaving the status word untouched. -/
def writeChunksWithFetchSize (chunkSize fetchSize status : Nat)
    (buffer remaining : List Nat) : FetchResp :=
  let p := fillBuffer chunkSize fetchSize buffer remaining
  if p.1.length = 0 then
    ⟨[], (status &&& (65535 ^^^ serverStatusCursorExists)) ||| serverStatusLastRowSend,
      true, [], p.2⟩
  else
    let curRows := if fetchSize < p.1.length then p.1.take fetchSize else p.1
    let buf' := if fetchSize < p.1.length then p.1.drop fetchSize else []
    ⟨curRows, status, false, buf', p.2⟩

/-! ## Concrete fixtures used by counterexamples and witnesses -/

/-- A utf8mb4 / utf8mb4_bin expression with Coercible coercibility. -/
def exprUtf8mb4Bin : Expression :=
  ⟨coercibilityCoercible, asciiRep, charsetUTF8MB4, collationUTF8MB4, false, none⟩

/-- A utf8mb4 / utf8mb4_general_ci expression with Coercible coercibility. -/
def exprUtf8mb4GeneralCI : Expression :=
  ⟨coercibilityCoercible, asciiRep, charsetUTF8MB4, "utf8mb4_general_ci", false, none⟩

/-- A numeric literal as the resolver sees it (e.g. the constant `1`):
Numeric coercibility, ASCII repertoire, binary charset and collation. -/
def exprNumericConst : Expression :=
  ⟨coercibilityNumeric, asciiRep, charsetBin, collationBin, true, some (some "1")⟩

/-- A session whose connection charset/collation is utf8mb4 / utf8mb4_bin. -/
def ctxUtf8mb4 : SessionCtx := ⟨charsetUTF8MB4, collationUTF8MB4, fun _ _ => true⟩

/-- A latin1 column with extended repertoire and Implicit coercibility. -/
def exprLatin1Ext : Expression :=
  ⟨coercibilityImplicit, extendedRep, charsetLatin1, "latin1_swedish_ci", false, none⟩

/-- A gbk column with extended repertoire and Implicit coercibility. -/
def exprGbkExt : Expression :=
  ⟨coercibilityImplicit, extendedRep, charsetGBK, "gbk_chinese_ci", false, none⟩

/-- Accumulator state matching `exprLatin1Ext` at the start of a fold. -/
def aggLatin1Ext : AggState :=
  ⟨coercibilityImplicit, extendedRep, charsetLatin1, "latin1_swedish_ci", false⟩

/-- The downgraded accumulator the pair (latin1, gbk) produces. -/
def aggDowngraded : AggState :=
  ⟨coercibilityNone, extendedRep, charsetBin, collationBin, true⟩

/-- Non-binary accumulator with Implicit coercibility, for the binary-wins witness. -/
def aggLatin1Ascii : AggState :=
  ⟨coercibilityImplicit, asciiRep, charsetLatin1, "latin1_swedish_ci", false⟩

/-- A `binary`-collated argument with Implicit coercibility. -/
def exprBinImplicit : Expression :=
  ⟨coercibilityImplicit, extendedRep, charsetBin, collationBin, false, none⟩

/-- A `binary`-collated accumulator with Implicit coercibility. -/
def aggBinImplicit : AggState :=
  ⟨coercibilityImplicit, asciiRep, charsetBin, collationBin, false⟩

/-- A gbk argument with Sysconst (weaker than Implicit) coercibility. -/
def exprGbkSysconst : Expression :=
  ⟨coercibilitySysconst, extendedRep, charsetGBK, "gbk_chinese_ci", false, none⟩

/-- Iterated fetch: `fetchRun cs fs status buffer remaining n` is the response
to the (n+1)-th COM_STMT_FETCH, threading the stored buffer and the executor's
pending rows from one fetch to the next. -/
def fetchRun (cs fs status : Nat) (buffer remaining : List Nat) : Nat → FetchResp
  | 0 => writeChunksWithFetchSize cs fs status buffer remaining
  | n + 1 =>
    let r := writeChunksWithFetchSize cs fs status buffer remaining
    fetchRun cs fs status r.buf r.rem n

/-- A query environment: no multi-statement capability, Warn mode, executor
that succeeds on every statement. -/
def qenvWarnFix : QueryEnv := ⟨0, modeWarn, none, false, fun _ => (false, none), fun _ => none⟩

/-- Same environment with mode Off. -/
def qenvOffFix : QueryEnv := ⟨0, modeOff, none, false, fun _ => (false, none), fun _ => none⟩

/-- Same environment with mode On. -/
def qenvOnFix : QueryEnv := ⟨0, modeOn, none, false, fun _ => (false, none), fun _ => none⟩

/-- A socket-auth user connecting over TCP (not a unix socket). -/
def authEnvSocketTcp : AuthEnv :=
  ⟨authSocketName, some "bob", authNativePassword, false, true, fun _ => true,
    some "switch", some "sha", some "sha", "", none⟩

/-- A socket-auth user connecting over a unix socket. -/
def authEnvSocketUnix : AuthEnv :=
  ⟨authSocketName, some "bob", authNativePassword, true, true, fun _ => true,
    some "switch", some "sha", some "sha", "", none⟩

/-- A row that encodes and writes without error. -/
def okRow : RowW := ⟨none, none⟩

/-! ## Theorems -/

/-- Claim C10: whenever the session status has the in-transaction flag set,
`ShutdownOrNotify` returns false immediately and leaves the connection's
status word unchanged (neither Shutdown nor WaitShutdown is stored). -/
theorem shutdownOrNotify_inTrans (s c : Nat) (h : s &&& serverStatusInTrans > 0) :
    shutdownOrNotify s c = (false, c) := by
  unfold shutdownOrNotify
  rw [if_pos h]

/-- Witness for C10 at a concrete in-transaction status word. -/
theorem shutdownOrNotify_inTrans_witness :
    1 &&& serverStatusInTrans > 0 ∧ shutdownOrNotify 1 connStatusReading = (false, connStatusReading) :=
  ⟨by decide, shutdownOrNotify_inTrans 1 connStatusReading (by decide)⟩

/-- Counterexample to claim C3 as stated: aggregating (utf8mb4, utf8mb4_bin,
Coercible) with (utf8mb4, utf8mb4_general_ci, Coercible) yields coercibility
Coercible — the binary collation utf8mb4_bin wins and keeps the common
coercibility — not CoercibilityNone as claimed. -/
theorem inferCollation_utf8mb4_pair_coer_not_none :
    inferCollation [exprUtf8mb4Bin, exprUtf8mb4GeneralCI] =
      some ⟨coercibilityCoercible, asciiRep, charsetUTF8MB4, collationUTF8MB4⟩ ∧
    (inferCollation [exprUtf8mb4Bin, exprUtf8mb4GeneralCI]).map ExprCollation.coer ≠
      some coercibilityNone := by
  exact ⟨by decide, by decide⟩

/-- Claim C3 (amended): aggregating two Coercible utf8mb4 expressions, one
collated utf8mb4_bin and the other utf8mb4_general_ci, in either order and for
any repertoires, resolves to (utf8mb4, utf8mb4_bin) with coercibility
CoercibilityCoercible (unchanged, since utf8mb4_bin is a per-charset binary
collation and binary wins without downgrading the coercibility), and the
repertoires are unioned. -/
theorem inferCollation_utf8mb4_bin_vs_general_ci (r1 r2 : Nat) (c1 c2 : Bool)
    (v1 v2 : Option (Option String)) :
    inferCollation [⟨coercibilityCoercible, r1, charsetUTF8MB4, collationUTF8MB4, c1, v1⟩,
        ⟨coercibilityCoercible, r2, charsetUTF8MB4, "utf8mb4_general_ci", c2, v2⟩] =
      some ⟨coercibilityCoercible, r1 ||| r2, charsetUTF8MB4, collationUTF8MB4⟩ ∧
    inferCollation [⟨coercibilityCoercible, r2, charsetUTF8MB4, "utf8mb4_general_ci", c2, v2⟩,
        ⟨coercibilityCoercible, r1, charsetUTF8MB4, collationUTF8MB4, c1, v1⟩] =
      some ⟨coercibilityCoercible, r2 ||| r1, charsetUTF8MB4, collationUTF8MB4⟩ :=
  ⟨rfl, rfl⟩

/-- Counterexample to claim C9 as stated: for an expression of Numeric
coercibility (a numeric literal), resolving concat over [A, A] does not return
A's tuple — the post-fold rule re-coerces an all-Numeric aggregate to the
connection charset/collation with Coercible coercibility and ASCII repertoire. -/
theorem resolveConcat_numeric_not_identity :
    resolveConcat ctxUtf8mb4 [exprNumericConst, exprNumericConst] =
      .ok ⟨coercibilityCoercible, asciiRep, charsetUTF8MB4, collationUTF8MB4⟩ ∧
    (⟨coercibilityCoercible, asciiRep, charsetUTF8MB4, collationUTF8MB4⟩ : ExprCollation) ≠
      ⟨exprNumericConst.coer, exprNumericConst.repe, exprNumericConst.charset,
        exprNumericConst.collation⟩ :=
  ⟨rfl, by decide⟩

/-- Claim C9 (amended): the aggregation itself is idempotent on identical
inputs — `inferCollation [A, A]` returns A's own coercibility, repertoire,
charset and collation for every A — and the full concat resolution returns
A's tuple unchanged whenever A's coercibility is not Numeric (a Numeric
aggregate is re-coerced to the connection charset/collation). -/
theorem inferCollation_self_pair (ctx : SessionCtx) (A : Expression) :
    inferCollation [A, A] = some ⟨A.coer, A.repe, A.charset, A.collation⟩ ∧
    (A.coer ≠ coercibilityNumeric →
      resolveConcat ctx [A, A] = .ok ⟨A.coer, A.repe, A.charset, A.collation⟩) := by
  have h1 : inferCollation [A, A] = some ⟨A.coer, A.repe, A.charset, A.collation⟩ := by
    by_cases hb : A.collation = collationBin
    · simp [inferCollation, inferFold, inferStep, hb, Nat.or_self]
    · simp [inferCollation, inferFold, inferStep, hb, Nat.or_self]
  refine ⟨h1, fun hn => ?_⟩
  unfold resolveConcat checkAndDeriveCollationFromExprs
  rw [h1]
  simp [hn, safeConvert, safeConvertArg]

/-- Witness for C9 at a concrete non-Numeric expression. -/
theorem inferCollation_self_pair_witness :
    inferCollation [exprLatin1Ext, exprLatin1Ext] =
      some ⟨coercibilityImplicit, extendedRep, charsetLatin1, "latin1_swedish_ci"⟩ ∧
    resolveConcat ctxUtf8mb4 [exprLatin1Ext, exprLatin1Ext] =
      .ok ⟨coercibilityImplicit, extendedRep, charsetLatin1, "latin1_swedish_ci"⟩ :=
  ⟨(inferCollation_self_pair ctxUtf8mb4 exprLatin1Ext).1,
    (inferCollation_self_pair ctxUtf8mb4 exprLatin1Ext).2 (by decide)⟩

/-- Claim C5: in the aggregation step, when one side's collation is the binary
collation and the other side's coercibility is greater or equal (strictly
weaker, or a tie), the binary side's coercibility, charset and collation win
regardless of the charsets, with the repertoires unioned.  The two conjuncts
cover the binary collation appearing on the incoming argument and on the
accumulator. -/
theorem inferStep_binary_wins (st : AggState) (arg : Expression) :
    (arg.collation = collationBin → arg.coer ≤ st.coer →
      inferStep st arg =
        some ⟨arg.coer, st.repe ||| arg.repe, arg.charset, arg.collation, st.unknownCS⟩) ∧
    (st.collation = collationBin → arg.collation ≠ collationBin → st.coer ≤ arg.coer →
      inferStep st arg =
        some ⟨st.coer, st.repe ||| arg.repe, st.charset, st.collation, st.unknownCS⟩) := by
  constructor
  · intro hb hle
    have hcond : st.collation = collationBin ∨ arg.collation = collationBin := Or.inr hb
    have hin : st.coer > arg.coer ∨ (st.coer = arg.coer ∧ arg.collation = collationBin) := by
      rcases Nat.lt_or_ge arg.coer st.coer with h | h
      · exact Or.inl h
      · exact Or.inr ⟨by omega, hb⟩
    rw [inferStep, if_pos hcond, if_pos hin]
  · intro hb hnb hle
    have hcond : st.collation = collationBin ∨ arg.collation = collationBin := Or.inl hb
    have hin : ¬ (st.coer > arg.coer ∨ (st.coer = arg.coer ∧ arg.collation = collationBin)) := by
      rintro (h | ⟨_, h2⟩)
      · omega
      · exact hnb h2
    rw [inferStep, if_pos hcond, if_neg hin]

/-- Witness for C5: the binary side wins on a tie in both positions. -/
theorem inferStep_binary_wins_witness :
    inferStep aggLatin1Ascii exprBinImplicit =
      some ⟨coercibilityImplicit, asciiRep ||| extendedRep, charsetBin, collationBin, false⟩ ∧
    inferStep aggBinImplicit exprGbkSysconst =
      some ⟨coercibilityImplicit, asciiRep ||| extendedRep, charsetBin, collationBin, false⟩ :=
  ⟨(inferStep_binary_wins aggLatin1Ascii exprBinImplicit).1 rfl (by decide),
    (inferStep_binary_wins aggBinImplicit exprGbkSysconst).2 rfl (by decide) (by decide)⟩

/-- Every successful aggregation step unions the repertoires (helper shared by
the repertoire theorems). -/
theorem inferStep_repe (st : AggState) (arg : Expression) (st' : AggState)
    (h : inferStep st arg = some st') : st'.repe = st.repe ||| arg.repe := by
  unfold inferStep at h
  split_ifs at h
  all_goals first
  | exact Option.noConfusion h
  | (injection h with h1; subst h1; rfl)

/-- Bits of the accumulated repertoire survive the whole fold (helper). -/
theorem inferFold_repe_mono (rest : List Expression) : ∀ st st' : AggState,
    inferFold st rest = some st' → ∀ i, st.repe.testBit i = true → st'.repe.testBit i = true := by
  induction rest with
  | nil =>
    intro st st' h i hb
    simp only [inferFold] at h
    injection h with h1
    subst h1
    exact hb
  | cons a rest ih =>
    intro st st' h i hb
    unfold inferFold at h
    cases heq : inferStep st a with
    | none => rw [heq] at h; exact Option.noConfusion h
    | some st1 =>
      rw [heq] at h
      apply ih st1 st' h
      rw [inferStep_repe st a st1 heq, Nat.testBit_lor, hb]
      rfl

/-- Claim C8: in every branch of the aggregation fold that continues, the
result repertoire is the bitwise union of both sides' repertoires, and
consequently no repertoire bit of the accumulator is ever lost over the fold. -/
theorem inferCollation_repertoire_union :
    (∀ (st : AggState) (arg : Expression) (st' : AggState),
      inferStep st arg = some st' → st'.repe = st.repe ||| arg.repe) ∧
    (∀ (rest : List Expression) (st st' : AggState), inferFold st rest = some st' →
      ∀ i, st.repe.testBit i = true → st'.repe.testBit i = true) :=
  ⟨inferStep_repe, inferFold_repe_mono⟩

/-- Witness for C8 on the (latin1, gbk) downgrade pair: the union survives even
the unresolvable branch, and the EXTENDED bit is preserved by the fold. -/
theorem inferCollation_repertoire_union_witness :
    aggDowngraded.repe = aggLatin1Ext.repe ||| exprGbkExt.repe ∧
    aggDowngraded.repe.testBit 1 = true :=
  ⟨inferCollation_repertoire_union.1 aggLatin1Ext exprGbkExt aggDowngraded (by decide),
    inferCollation_repertoire_union.2 [exprGbkExt] aggLatin1Ext aggDowngraded (by decide) 1
      (by decide)⟩

/-- Claim C6: (1) whenever a fold step sets the unknown-charset flag, the two
sides had different charsets and the accumulator was downgraded to
(CoercibilityNone, binary charset, binary collation) with the repertoires
unioned, and the fold continued; (2) if the fold finishes with the flag set and
a final coercibility other than Explicit, `inferCollation` fails; (3) a failed
`inferCollation` makes `CheckAndDeriveCollationFromExprs` return the
illegal-mix-of-collations error. -/
theorem inferCollation_unknown_charset_downgrade :
    (∀ (st : AggState) (arg : Expression) (st' : AggState), st.unknownCS = false →
      inferStep st arg = some st' → st'.unknownCS = true →
      st.charset ≠ arg.charset ∧
        st' = ⟨coercibilityNone, st.repe ||| arg.repe, charsetBin, collationBin, true⟩) ∧
    (∀ (e : Expression) (rest : List Expression) (stf : AggState),
      inferFold ⟨e.coer, e.repe, e.charset, e.collation, false⟩ rest = some stf →
      stf.unknownCS = true → stf.coer ≠ coercibilityExplicit →
      inferCollation (e :: rest) = none) ∧
    (∀ (ctx : SessionCtx) (evalTypeIsString : Bool) (args : List Expression),
      inferCollation args = none →
      checkAndDeriveCollationFromExprs ctx evalTypeIsString args = .error ()) := by
  refine ⟨?_, ?_, ?_⟩
  · intro st arg st' h1 h2 h3
    unfold inferStep at h2
    split_ifs at h2
    all_goals first
    | exact Option.noConfusion h2
    | (injection h2 with hh; subst hh; simp_all)
  · intro e rest stf hfold hcs hcoer
    simp only [inferCollation]
    rw [hfold]
    simp [hcs, hcoer]
  · intro ctx ets args hnone
    unfold checkAndDeriveCollationFromExprs
    rw [hnone]

/-- Witness for C6 on the (latin1, gbk) Implicit pair with extended
repertoires: the step downgrades and flags, the fold then fails, and the
caller surfaces the illegal-mix error. -/
theorem inferCollation_unknown_charset_downgrade_witness :
    (aggLatin1Ext.charset ≠ exprGbkExt.charset ∧
      aggDowngraded = ⟨coercibilityNone, aggLatin1Ext.repe ||| exprGbkExt.repe, charsetBin,
        collationBin, true⟩) ∧
    inferCollation [exprLatin1Ext, exprGbkExt] = none ∧
    checkAndDeriveCollationFromExprs ctxUtf8mb4 true [exprLatin1Ext, exprGbkExt] = .error () :=
  ⟨inferCollation_unknown_charset_downgrade.1 aggLatin1Ext exprGbkExt aggDowngraded rfl
      (by decide) rfl,
    inferCollation_unknown_charset_downgrade.2.1 exprLatin1Ext [exprGbkExt] aggDowngraded
      (by decide) rfl (by decide),
    inferCollation_unknown_charset_downgrade.2.2 ctxUtf8mb4 true [exprLatin1Ext, exprGbkExt]
      (by decide)⟩

/-- The buffer-filling loop rearranges rows but conserves them: buffer and
pending rows after the loop concatenate to the original ones (helper). -/
theorem fillBufferFuel_append : ∀ (fuel cs fs : Nat) (buffer remaining : List Nat),
    remaining.length < fuel →
    (fillBufferFuel fuel cs fs buffer remaining).1 ++ (fillBufferFuel fuel cs fs buffer remaining).2 =
      buffer ++ remaining := by
  intro fuel
  induction fuel with
  | zero => intro cs fs b r h; omega
  | succ n ih =>
    intro cs fs b r h
    simp only [fillBufferFuel]
    by_cases h1 : b.length < fs
    · rw [if_pos h1]
      by_cases h2 : (r.take cs).length = 0
      · rw [if_pos h2]
      · rw [if_neg h2]
        have ht : (r.take cs).length = min cs r.length := List.length_take cs r
        have hd : (r.drop cs).length = r.length - cs := List.length_drop cs r
        have hlen : (r.drop cs).length < n := by omega
        rw [ih cs fs (b ++ r.take cs) (r.drop cs) hlen]
        rw [List.append_assoc, List.take_append_drop]
    · rw [if_neg h1]

/-- The buffer-filling loop stops only with a full buffer or a drained
executor (helper, for positive chunk sizes). -/
theorem fillBufferFuel_post : ∀ (fuel cs fs : Nat) (buffer remaining : List Nat),
    remaining.length < fuel → 0 < cs →
    fs ≤ (fillBufferFuel fuel cs fs buffer remaining).1.length ∨
      (fillBufferFuel fuel cs fs buffer remaining).2.length = 0 := by
  intro fuel
  induction fuel with
  | zero => intro cs fs b r h; omega
  | succ n ih =>
    intro cs fs b r h hcs
    simp only [fillBufferFuel]
    by_cases h1 : b.length < fs
    · rw [if_pos h1]
      by_cases h2 : (r.take cs).length = 0
      · rw [if_pos h2]
        have ht : (r.take cs).length = min cs r.length := List.length_take cs r
        right
        show r.length = 0
        omega
      · rw [if_neg h2]
        have ht : (r.take cs).length = min cs r.length := List.length_take cs r
        have hd : (r.drop cs).length = r.length - cs := List.length_drop cs r
        exact ih cs fs (b ++ r.take cs) (r.drop cs) (by omega) hcs
    · rw [if_neg h1]
      left
      show fs ≤ b.length
      omega

/-- Row conservation for `fillBuffer` (helper). -/
theorem fillBuffer_append (cs fs : Nat) (buffer remaining : List Nat) :
    (fillBuffer cs fs buffer remaining).1 ++ (fillBuffer cs fs buffer remaining).2 =
      buffer ++ remaining :=
  fillBufferFuel_append (remaining.length + 1) cs fs buffer remaining (by omega)

/-- Loop post-condition for `fillBuffer` (helper). -/
theorem fillBuffer_post (cs fs : Nat) (buffer remaining : List Nat) (hcs : 0 < cs) :
    fs ≤ (fillBuffer cs fs buffer remaining).1.length ∨
      (fillBuffer cs fs buffer remaining).2.length = 0 :=
  fillBufferFuel_post (remaining.length + 1) cs fs buffer remaining (by omega) hcs

/-- One fetch with rows still available sends exactly
`min fetchSize availableRows` rows, leaves the status word untouched, does not
close the result set, and leaves the remaining rows buffered or pending
(helper). -/
theorem writeChunksWithFetchSize_step (cs fs status : Nat) (buffer remaining : List Nat)
    (hcs : 0 < cs) (hfs : 0 < fs) (hne : buffer.length + remaining.length ≠ 0) :
    (writeChunksWithFetchSize cs fs status buffer remaining).rows.length =
      min fs (buffer.length + remaining.length) ∧
    (writeChunksWithFetchSize cs fs status buffer remaining).status = status ∧
    (writeChunksWithFetchSize cs fs status buffer remaining).closed = false ∧
    (writeChunksWithFetchSize cs fs status buffer remaining).buf.length +
        (writeChunksWithFetchSize cs fs status buffer remaining).rem.length =
      buffer.length + remaining.length - min fs (buffer.length + remaining.length) := by
  have happ : (fillBuffer cs fs buffer remaining).1.length +
      (fillBuffer cs fs buffer remaining).2.length = buffer.length + remaining.length := by
    have := congrArg List.length (fillBuffer_append cs fs buffer remaining)
    simpa [List.length_append] using this
  have hpost := fillBuffer_post cs fs buffer remaining hcs
  have hne1 : ¬ (fillBuffer cs fs buffer remaining).1.length = 0 := by omega
  by_cases hlt : fs < (fillBuffer cs fs buffer remaining).1.length
  · have heq : writeChunksWithFetchSize cs fs status buffer remaining =
        ⟨(fillBuffer cs fs buffer remaining).1.take fs, status, false,
          (fillBuffer cs fs buffer remaining).1.drop fs, (fillBuffer cs fs buffer remaining).2⟩ := by
      unfold writeChunksWithFetchSize
      rw [if_neg hne1]
      simp only [if_pos hlt]
    rw [heq]
    have ht := List.length_take fs (fillBuffer cs fs buffer remaining).1
    have hd := List.length_drop fs (fillBuffer cs fs buffer remaining).1
    exact ⟨by simp only []; omega, rfl, rfl, by simp only []; omega⟩
  · have heq : writeChunksWithFetchSize cs fs status buffer remaining =
        ⟨(fillBuffer cs fs buffer remaining).1, status, false, [],
          (fillBuffer cs fs buffer remaining).2⟩ := by
      unfold writeChunksWithFetchSize
      rw [if_neg hne1]
      simp only [if_neg hlt]
    rw [heq]
    exact ⟨by simp only []; omega, rfl, rfl, by simp only [List.length_nil]; omega⟩

/-- A fetch that finds no rows at all clears the cursor-exists bit, sets the
last-row-sent bit and closes the result set (helper). -/
theorem writeChunksWithFetchSize_empty (cs fs status : Nat) :
    writeChunksWithFetchSize cs fs status [] [] =
      ⟨[], (status &&& (65535 ^^^ serverStatusCursorExists)) ||| serverStatusLastRowSend,
        true, [], []⟩ := by
  unfold writeChunksWithFetchSize fillBuffer fillBufferFuel
  simp [List.take_nil]

/-- Counterexample to claim C4 as stated: with fetchSize 10 over exactly 25
rows, the third fetch response carries 5 rows but its status word still has the
cursor-exists bit set and the result set is not closed — the bit is not
cleared on the third response. -/
theorem writeChunksWithFetchSize_third_keeps_cursor :
    (fetchRun 1024 10 64 [] (List.range 25) 2).rows.length = 5 ∧
    (fetchRun 1024 10 64 [] (List.range 25) 2).status &&& serverStatusCursorExists =
      serverStatusCursorExists ∧
    (fetchRun 1024 10 64 [] (List.range 25) 2).closed = false := by
  decide

/-- Claim C4 (amended): for any chunk size and any 25-row result set, fetching
with fetchSize 10 produces responses of 10, 10 and 5 rows, each leaving the
status word (and so the cursor-exists bit) untouched and the result set open;
only the fourth fetch, which finds zero rows, clears the cursor-exists bit,
sets the last-row-sent bit and closes the result set. -/
theorem writeChunksWithFetchSize_25_rows (cs status : Nat) (rows : List Nat)
    (hcs : 0 < cs) (hrows : rows.length = 25) :
    (fetchRun cs 10 status [] rows 0).rows.length = 10 ∧
    (fetchRun cs 10 status [] rows 0).status = status ∧
    (fetchRun cs 10 status [] rows 0).closed = false ∧
    (fetchRun cs 10 status [] rows 1).rows.length = 10 ∧
    (fetchRun cs 10 status [] rows 1).status = status ∧
    (fetchRun cs 10 status [] rows 1).closed = false ∧
    (fetchRun cs 10 status [] rows 2).rows.length = 5 ∧
    (fetchRun cs 10 status [] rows 2).status = status ∧
    (fetchRun cs 10 status [] rows 2).closed = false ∧
    (fetchRun cs 10 status [] rows 3).rows = [] ∧
    (fetchRun cs 10 status [] rows 3).status =
      (status &&& (65535 ^^^ serverStatusCursorExists)) ||| serverStatusLastRowSend ∧
    (fetchRun cs 10 status [] rows 3).closed = true := by
  have n1 : ([] : List Nat).length + rows.length = 25 := by simp [hrows]
  obtain ⟨s1r, s1s, s1c, s1b⟩ :=
    writeChunksWithFetchSize_step cs 10 status [] rows hcs (by omega) (by omega)
  set r1 := writeChunksWithFetchSize cs 10 status [] rows with hr1
  have r1rows : r1.rows.length = 10 := by omega
  have r1tot : r1.buf.length + r1.rem.length = 15 := by omega
  obtain ⟨s2r, s2s, s2c, s2b⟩ :=
    writeChunksWithFetchSize_step cs 10 status r1.buf r1.rem hcs (by omega) (by omega)
  set r2 := writeChunksWithFetchSize cs 10 status r1.buf r1.rem with hr2
  have r2rows : r2.rows.length = 10 := by omega
  have r2tot : r2.buf.length + r2.rem.length = 5 := by omega
  obtain ⟨s3r, s3s, s3c, s3b⟩ :=
    writeChunksWithFetchSize_step cs 10 status r2.buf r2.rem hcs (by omega) (by omega)
  set r3 := writeChunksWithFetchSize cs 10 status r2.buf r2.rem with hr3
  have r3rows : r3.rows.length = 5 := by omega
  have hb3 : r3.buf = [] := List.length_eq_zero.mp (by omega)
  have hm3 : r3.rem = [] := List.length_eq_zero.mp (by omega)
  have e1 : fetchRun cs 10 status [] rows 1 = r2 := rfl
  have e2 : fetchRun cs 10 status [] rows 2 = r3 := rfl
  have e3 : fetchRun cs 10 status [] rows 3 =
      writeChunksWithFetchSize cs 10 status r3.buf r3.rem := rfl
  refine ⟨r1rows, s1s, s1c, ?_, ?_, ?_, ?_, ?_, ?_, ?_, ?_, ?_⟩
  · rw [e1]; exact r2rows
  · rw [e1]; exact s2s
  · rw [e1]; exact s2c
  · rw [e2]; exact r3rows
  · rw [e2]; exact s3s
  · rw [e2]; exact s3c
  · rw [e3, hb3, hm3, writeChunksWithFetchSize_empty]
  · rw [e3, hb3, hm3, writeChunksWithFetchSize_empty]
  · rw [e3, hb3, hm3, writeChunksWithFetchSize_empty]

/-- Witness for C4 at chunk size 3, status word 64 and rows 0..24. -/
theorem writeChunksWithFetchSize_25_rows_witness :
    (fetchRun 3 10 64 [] (List.range 25) 0).rows.length = 10 ∧
    (fetchRun 3 10 64 [] (List.range 25) 0).status = 64 ∧
    (fetchRun 3 10 64 [] (List.range 25) 0).closed = false ∧
    (fetchRun 3 10 64 [] (List.range 25) 1).rows.length = 10 ∧
    (fetchRun 3 10 64 [] (List.range 25) 1).status = 64 ∧
    (fetchRun 3 10 64 [] (List.range 25) 1).closed = false ∧
    (fetchRun 3 10 64 [] (List.range 25) 2).rows.length = 5 ∧
    (fetchRun 3 10 64 [] (List.range 25) 2).status = 64 ∧
    (fetchRun 3 10 64 [] (List.range 25) 2).closed = false ∧
    (fetchRun 3 10 64 [] (List.range 25) 3).rows = [] ∧
    (fetchRun 3 10 64 [] (List.range 25) 3).status =
      (64 &&& (65535 ^^^ serverStatusCursorExists)) ||| serverStatusLastRowSend ∧
    (fetchRun 3 10 64 [] (List.range 25) 3).closed = true :=
  writeChunksWithFetchSize_25_rows 3 64 (List.range 25) (by decide) (by decide)

/-- Once the first pull has succeeded, no outcome of `writeChunks` is ever
reported retryable (helper). -/
theorem writeChunks_after_first (pulls : List PullRes) : ∀ (gc : Bool) (w : List WPkt),
    (writeChunks pulls false gc w).retryable = false := by
  induction pulls with
  | nil => intro gc w; rfl
  | cons p rest ih =>
    intro gc w
    cases p with
    | err e => rfl
    | chunk rows =>
      simp only [writeChunks]
      by_cases h0 : rows.length = 0
      · rw [if_pos h0]
      · rw [if_neg h0]
        cases hw : (writeRows rows).2 with
        | none => simp only [hw]; exact ih _ _
        | some e => simp only [hw]

/-- Claim C7: an error on the very first pull from the executor is reported as
retryable with nothing (no column descriptors, no rows) written yet; once the
first pull succeeds the outcome is never retryable — in particular an error on
a subsequent pull, or any row encode/write error, is reported not retryable. -/
theorem writeChunks_retryable :
    (∀ (e : String) (rest : List PullRes),
      writeChunksRun (.err e :: rest) = ⟨true, some e, []⟩) ∧
    (∀ (rows : List RowW) (rest : List PullRes),
      (writeChunksRun (.chunk rows :: rest)).retryable = false) ∧
    (∀ (rows : List RowW) (e : String) (rest : List PullRes), rows ≠ [] →
      (writeRows rows).2 = none →
      writeChunksRun (.chunk rows :: .err e :: rest) =
        ⟨false, some e, WPkt.colInfo :: (writeRows rows).1⟩) := by
  refine ⟨fun e rest => rfl, ?_, ?_⟩
  · intro rows rest
    simp only [writeChunksRun, writeChunks]
    by_cases h0 : rows.length = 0
    · rw [if_pos h0]
    · rw [if_neg h0]
      cases hw : (writeRows rows).2 with
      | none => simp only [hw]; exact writeChunks_after_first _ _ _
      | some e => simp only [hw]
  · intro rows e rest hne hok
    have h0 : ¬ rows.length = 0 := by
      intro h
      exact hne (List.length_eq_zero.mp h)
    simp only [writeChunksRun, writeChunks]
    rw [if_neg h0]
    simp only [hok]
    rfl

/-- Witness for C7: one good chunk followed by an executor error yields a
non-retryable error after the column packet and the row were written. -/
theorem writeChunks_retryable_witness :
    writeChunksRun [.chunk [okRow], .err "executor failed"] =
      ⟨false, some "executor failed", WPkt.colInfo :: (writeRows [okRow]).1⟩ :=
  writeChunks_retryable.2.2 [okRow] "executor failed" [] (by decide) rfl

/-- A loop over statements that all succeed executes every statement in order
and returns no error (helper). -/
theorem runStmts_all_ok (env : QueryEnv) : ∀ stmts : List String,
    (∀ s ∈ stmts, (env.run s).2 = none) → runStmts env stmts = (stmts, none) := by
  intro stmts
  induction stmts with
  | nil => intro _; rfl
  | cons s rest ih =>
    intro h
    simp only [runStmts]
    rw [h s (by simp)]
    rw [ih fun x hx => h x (by simp [hx])]

/-- Counterexample to claim C1 as stated: a two-statement query from a client
without the multi-statement capability under mode Warn executes BOTH
statements (with the warning attached), not only the first. -/
theorem handleQuery_warn_executes_all :
    handleQuery qenvWarnFix ["SELECT 1", "SELECT 2"] =
      ⟨["SELECT 1", "SELECT 2"], none, true⟩ ∧
    (["SELECT 1", "SELECT 2"] : List String) ≠ ["SELECT 1"] :=
  ⟨by decide, by decide⟩

/-- Claim C1 (amended): for a multi-statement query from a client that has not
negotiated the multi-statement capability, with successful prefetch and an
executor that succeeds on every statement: mode Off returns the
multi-statement-disabled error with no statement executed; mode On executes all
statements silently; any other mode (Warn) executes ALL statements and attaches
the multi-statement-disabled warning. -/
theorem handleQuery_modes (env : QueryEnv) (stmts : List String)
    (hlen : 1 < stmts.length) (hcap : env.capability &&& clientMultiStatements = 0)
    (hpre : env.prefetchErr = none) (hok : ∀ s ∈ stmts, (env.run s).2 = none) :
    (env.multiStmtMode = modeOff →
      handleQuery env stmts = ⟨[], some .multiStatementDisabled, false⟩) ∧
    (env.multiStmtMode = modeOn → handleQuery env stmts = ⟨stmts, none, false⟩) ∧
    (env.multiStmtMode ≠ modeOff → env.multiStmtMode ≠ modeOn →
      handleQuery env stmts = ⟨stmts, none, true⟩) := by
  have h0 : ¬ stmts.length = 0 := by omega
  have h1 : stmts.length > 1 := hlen
  have hcap1 : env.capability &&& clientMultiStatements < 1 := by omega
  refine ⟨?_, ?_, ?_⟩
  · intro hm
    simp only [handleQuery]
    rw [if_neg h0, if_pos h1, if_pos hcap1, if_pos hm]
  · intro hm
    have hm0 : ¬ env.multiStmtMode = modeOff := by rw [hm]; decide
    simp only [handleQuery]
    rw [if_neg h0, if_pos h1, if_pos hcap1, if_neg hm0, if_pos hm]
    simp only [if_pos h1, hpre]
    rw [runStmts_all_ok env stmts hok]
  · intro hm0 hm1
    simp only [handleQuery]
    rw [if_neg h0, if_pos h1, if_pos hcap1, if_neg hm0, if_neg hm1]
    simp only [if_pos h1, hpre]
    rw [runStmts_all_ok env stmts hok]

/-- Witness for C1 in all three modes on a concrete two-statement query. -/
theorem handleQuery_modes_witness :
    handleQuery qenvOffFix ["SELECT 1", "SELECT 2"] =
      ⟨[], some .multiStatementDisabled, false⟩ ∧
    handleQuery qenvOnFix ["SELECT 1", "SELECT 2"] =
      ⟨["SELECT 1", "SELECT 2"], none, false⟩ ∧
    handleQuery qenvWarnFix ["SELECT 1", "SELECT 2"] =
      ⟨["SELECT 1", "SELECT 2"], none, true⟩ :=
  ⟨(handleQuery_modes qenvOffFix ["SELECT 1", "SELECT 2"] (by decide) rfl rfl
      fun s _ => rfl).1 rfl,
    (handleQuery_modes qenvOnFix ["SELECT 1", "SELECT 2"] (by decide) rfl rfl
      fun s _ => rfl).2.1 rfl,
    (handleQuery_modes qenvWarnFix ["SELECT 1", "SELECT 2"] (by decide) rfl rfl
      fun s _ => rfl).2.2 (by decide) (by decide)⟩

/-- Claim C2: when the named user account is configured for `auth_socket`
authentication and the client negotiated plugin auth, a handshake over anything
other than a unix-socket transport fails with an access-denied error, and a
handshake can only succeed over a unix-socket transport. -/
theorem checkAuthPlugin_socket_auth (env : AuthEnv) (clientPlugin clientAuth : String)
    (hu : env.userplugin = authSocketName) :
    (env.isUnixSocket = false →
      isAccessDeniedRes (handshakeAuth env true clientPlugin clientAuth) = true) ∧
    (handshakeAuth env true clientPlugin clientAuth = .ok () → env.isUnixSocket = true) := by
  have key : env.isUnixSocket = false →
      isAccessDeniedRes (handshakeAuth env true clientPlugin clientAuth) = true := by
    intro hx
    cases hl : env.uidLookup with
    | none =>
      cases hp : env.peerAddrOk <;>
        simp [handshakeAuth, handleAuthPlugin, checkAuthPlugin, openSessionAndDoAuth,
          peerHost, isAccessDeniedRes, hu, hl, hp, hx, authSocketName,
          authCachingSha2Password, authNativePassword]
    | some uname =>
      cases hp : env.peerAddrOk <;>
        simp [handshakeAuth, handleAuthPlugin, checkAuthPlugin, openSessionAndDoAuth,
          peerHost, isAccessDeniedRes, hu, hl, hp, hx, authSocketName,
          authCachingSha2Password, authNativePassword]
  refine ⟨key, fun hok => ?_⟩
  cases hx : env.isUnixSocket with
  | true => rfl
  | false =>
    have := key hx
    rw [hok] at this
    simp [isAccessDeniedRes] at this

/-- Witness for C2: a socket-auth user over TCP is denied. -/
theorem checkAuthPlugin_socket_auth_witness :
    isAccessDeniedRes (handshakeAuth authEnvSocketTcp true authNativePassword "secret") = true :=
  (checkAuthPlugin_socket_auth authEnvSocketTcp authNativePassword "secret" rfl).1 rfl
